import Mathlib

/-!
Verification development for the travel-assistant agent core (`src/agent.py`).

Strings are shallowly embedded as `List Char` (`Str`), so that Python string
operations (slicing, splitting, concatenation, membership) become ordinary
list operations with good proof support.  Python truthiness of a string is
emptiness of the list; truthiness of an optional string is `some` of a
non-empty list.
-/

abbrev Str := List Char

/-- Coerce a Lean string literal to the `List Char` embedding. -/
def str (s : String) : Str := s.data

/-- The apostrophe character (U+0027), built numerically. -/
def aposChar : Char := Char.ofNat 39

/-- Wrap a string in apostrophes, as the HTML attribute quoting in `_html` does. -/
def q (s : Str) : Str := aposChar :: (s ++ [aposChar])

/-- Python `str.strip()` (default whitespace stripping, both ends). -/
def pyStrip (s : Str) : Str :=
  ((s.dropWhile Char.isWhitespace).reverse.dropWhile Char.isWhitespace).reverse

/-! ## Data model: `ChatMessage` (agent_framework message, as used by `agent.py`)

`Content` models the three content-part kinds the repository code inspects:
`TextContent` (its `text`), `FunctionCallContent` (its `call_id`), and
`FunctionResultContent` (its `call_id` and its `result` payload).  The
`result` payload of a function result is abstracted to the optional calendar
file path that the extraction logic in `agent.py` (dict field / JSON-string
field) would find in it; no claim depends on the payload syntax itself. -/

inductive Role
  | user
  | assistant
  | tool
  | system
deriving DecidableEq, Repr

inductive Content
  | text (t : Str)
  | functionCall (callId : Option Str)
  | functionResult (callId : Option Str) (filePath : Option Str)
deriving DecidableEq, Repr

structure ChatMessage where
  role : Role
  contents : List Content
  authorName : Option Str := none
  messageId : Option Str := none
deriving DecidableEq, Repr

/-! ## `_SanitizingChatMessageStore._sanitize_messages` (src/agent.py lines 169-218) -/

/-- Role test `role_val == "tool"` used by the sanitizer. -/
def isToolRole (m : ChatMessage) : Bool := m.role = Role.tool

/-- Call ids declared by an assistant message: every `FunctionCallContent`
whose `call_id` is truthy (`if isinstance(c, FunctionCallContent) and
getattr(c, "call_id", None)`). -/
def assistantCallIds (m : ChatMessage) : List Str :=
  m.contents.filterMap fun c =>
    match c with
    | Content.functionCall (some cid) => if cid = [] then none else some cid
    | _ => none

/-- Predicate keeping a tool-message content part: it must be a
`FunctionResultContent` whose `call_id` is in the valid set
(`getattr(c, "call_id", None) in valid_call_ids`; a `None` call id is never
in a set of strings). -/
def keepResult (validIds : List Str) (c : Content) : Bool :=
  match c with
  | Content.functionResult (some cid) _ => decide (cid ∈ validIds)
  | _ => false

/-- Step 2-4 of `_sanitize_messages`: scan messages in order, growing the set
of valid call ids at assistant messages, filtering tool messages' result
parts to declared ids (dropping the message if nothing remains), passing
all other roles through unchanged. -/
def sanitizeScan (validIds : List Str) : List ChatMessage → List ChatMessage
  | [] => []
  | m :: rest =>
    if m.role = Role.assistant then
      m :: sanitizeScan (validIds ++ assistantCallIds m) rest
    else if m.role = Role.tool then
      let filtered := m.contents.filter (keepResult validIds)
      if filtered.isEmpty then sanitizeScan validIds rest
      else { m with contents := filtered } :: sanitizeScan validIds rest
    else
      m :: sanitizeScan validIds rest

/-- `_sanitize_messages`: drop the leading run of tool-role messages (step 1;
the `for ... else: return []` covers the all-tool case, and the empty input
returns `[]`), then scan the remainder with an empty valid-id set. -/
def sanitizeMessages (messages : List ChatMessage) : List ChatMessage :=
  sanitizeScan [] (messages.dropWhile isToolRole)

/-! ## `TravelAgent._perform_search` (src/agent.py lines 604-708)

Only the pure data flow of lines 650-669 is embedded: score filtering and
selection of the URLs handed to `tavily_client.extract`.  Tavily result
scores are floats in the source; they are embedded as rationals, which
preserves the order comparison `r.get("score", 0) > 0.2` that the claim is
about.  Only the dictionary keys the code reads (`score`, `url`) are
modelled. -/

structure SearchResult where
  url : Option Str := none
  score : Option ℚ := none
deriving DecidableEq

/-- `r.get("score", 0)`. -/
def scoreOf (r : SearchResult) : ℚ := r.score.getD 0

/-- `r.get("url")` guarded by truthiness (`if r.get("url")`). -/
def urlTruthy (r : SearchResult) : Option Str :=
  match r.url with
  | some u => if u = [] then none else some u
  | none => none

/-- Score filtering and URL selection of `_perform_search`:
`if not results: return {"results": [], "extractions": []}`, else
`filtered_results = [r for r in all_results if r.get("score", 0) > 0.2]` and
`top_urls = [r.get("url") for r in filtered_results[:2] if r.get("url")]`
(the list later passed to `tavily_client.extract`).  Returns
(filtered results, urls passed to extraction). -/
def performSearchFiltered (response : Option (List SearchResult)) :
    List SearchResult × List Str :=
  match response with
  | none => ([], [])
  | some allResults =>
    let filtered := allResults.filter fun r => decide ((1 : ℚ)/5 < scoreOf r)
    let topUrls := (filtered.take 2).filterMap urlTruthy
    (filtered, topUrls)

/-! ## `NonBlockingMem0Provider.invoking` truncation (src/agent.py lines 98-127)

The retrieved memory context's message texts are collected, joined with
newlines, reduced to the first 12 non-blank lines, and cut to 2000
characters plus an ellipsis when longer.  `mem0TruncateText` returns `some`
of the replacement text, or `none` when the original context is returned
unchanged (`if not full_text: return ctx` and the trailing
`... if trimmed else ctx`). -/

/-- Split a character list at `'\n'`, keeping every field (including a
trailing empty one). -/
def splitLinesAux : List Char → List Char → List Str
  | [], acc => [acc.reverse]
  | c :: rest, acc =>
    if c = '\n' then acc.reverse :: splitLinesAux rest []
    else splitLinesAux rest (c :: acc)

/-- Python `str.splitlines()` restricted to `'\n'` separators (the only
separator produced by the joins in this code): no trailing empty field, and
the empty string yields no lines. -/
def pySplitlines (s : Str) : List Str :=
  if s = [] then []
  else if s.getLast? = some '\n' then (splitLinesAux s []).dropLast
  else splitLinesAux s []

/-- Python `"\n".join(...)` over the character-list embedding. -/
def joinNl : List Str → Str
  | [] => []
  | [x] => x
  | x :: y :: xs => x ++ '\n' :: joinNl (y :: xs)

/-- The single-character ellipsis marker appended on truncation. -/
def ellipsisChar : Char := '…'

/-- Number of non-blank lines of a text (`[ln for ln in s.splitlines() if ln.strip()]`). -/
def nonblankLineCount (s : Str) : Nat :=
  ((pySplitlines s).filter fun ln => !(pyStrip ln).isEmpty).length

/-- `lines = [ln for ln in full_text.splitlines() if ln.strip()]`. -/
def mem0Lines (fullText : Str) : List Str :=
  (pySplitlines fullText).filter fun ln => pyStrip ln ≠ []

/-- `trimmed = "\n".join(lines[:MAX_LINES])` with `MAX_LINES = 12`. -/
def mem0Trimmed (fullText : Str) : Str := joinNl ((mem0Lines fullText).take 12)

/-- `if len(trimmed) > MAX_CHARS: trimmed = trimmed[:MAX_CHARS] + "…"` with
`MAX_CHARS = 2000`. -/
def mem0Final (fullText : Str) : Str :=
  if 2000 < (mem0Trimmed fullText).length then
    (mem0Trimmed fullText).take 2000 ++ [ellipsisChar]
  else mem0Trimmed fullText

/-- Truncation applied by `NonBlockingMem0Provider.invoking` to the joined
memory text parts.  `none` means the provider context is passed through
unchanged (`if not full_text: return ctx` and the trailing
`... if trimmed else ctx`). -/
def mem0TruncateText (txtParts : List Str) : Option Str :=
  let fullText := joinNl (txtParts.filter fun p => p ≠ [])
  if fullText = [] then none
  else if mem0Final fullText = [] then none
  else some (mem0Final fullText)

/-! ## `TravelAgent._create_simple_event` (src/agent.py lines 866-937)

Dates and times: `datetime.fromisoformat(date_str).date()` is embedded for
its `YYYY-MM-DD` input form (the form the tool documents and the claims
use); `map(int, t.split(':'))` with the subsequent
`datetime.min.time().replace(hour=..., minute=...)` is embedded as a
two-field parse with the 0-23 / 0-59 range checks that `.replace` enforces
(any Python-side `ValueError` is caught by the function and surfaces as
`None`, exactly like a failed parse here).  A datetime instant is embedded
as minutes on a proleptic-Gregorian day count, so `timedelta` arithmetic is
plain integer arithmetic on minutes. -/

structure Date where
  y : Nat
  m : Nat
  d : Nat
deriving DecidableEq, Repr

/-- Leap-year rule of the Gregorian calendar. -/
def isLeapYear (y : Nat) : Bool := (y % 4 = 0 && y % 100 ≠ 0) || y % 400 = 0

def daysInMonth (y m : Nat) : Nat :=
  if m = 2 then (if isLeapYear y then 29 else 28)
  else if m = 4 ∨ m = 6 ∨ m = 9 ∨ m = 11 then 30
  else 31

/-- Days since 0000-03-01 of the proleptic Gregorian calendar (civil-to-days
conversion; only used on parsed dates, whose year is at least 1). -/
def daysFromCivil (dt : Date) : Nat :=
  let y := if dt.m ≤ 2 then dt.y - 1 else dt.y
  let era := y / 400
  let yoe := y % 400
  let mp := (dt.m + 9) % 12
  let doy := (153 * mp + 2) / 5 + dt.d - 1
  era * 146097 + yoe * 365 + yoe / 4 - yoe / 100 + doy

/-- `datetime.combine(event_date, time(hour, minute))`, as total minutes. -/
def dtCombine (d : Date) (hour minute : Nat) : Int :=
  (daysFromCivil d : Int) * 1440 + hour * 60 + minute

/-- Digits-only string to number (the integer parse used inside the strict
date/time formats accepted here). -/
def digitsToNat : Str → Option Nat
  | [] => none
  | ds => ds.foldl (fun acc c => acc.bind fun n => if c.isDigit then some (n * 10 + (c.toNat - 48)) else none) (some 0)

/-- Split a character list on a separator character, keeping every field. -/
def charSplitOn (sep : Char) : List Char → List Str
  | [] => [[]]
  | c :: rest =>
    let r := charSplitOn sep rest
    if c = sep then [] :: r
    else match r with
      | [] => [[c]]
      | f :: fs => (c :: f) :: fs

/-- `datetime.fromisoformat` on `YYYY-MM-DD` input (with Python's validity
checks: year 1-9999, month 1-12, day within the month). -/
def parseIsoDate (s : Str) : Option Date :=
  match charSplitOn '-' s with
  | [ys, ms, ds] =>
    if ys.length = 4 ∧ ms.length = 2 ∧ ds.length = 2 then
      match digitsToNat ys, digitsToNat ms, digitsToNat ds with
      | some y, some m, some d =>
        if 1 ≤ y ∧ y ≤ 9999 ∧ 1 ≤ m ∧ m ≤ 12 ∧ 1 ≤ d ∧ d ≤ daysInMonth y m then
          some ⟨y, m, d⟩
        else none
      | _, _, _ => none
    else none
  | _ => none

/-- `start_hour, start_min = map(int, t.split(':'))` followed by
`datetime.min.time().replace(hour=h, minute=m)`: exactly two numeric
fields, hour 0-23, minute 0-59; anything else raises in Python and the
whole event creation returns `None`. -/
def parseTimeHM (s : Str) : Option (Nat × Nat) :=
  match charSplitOn ':' s with
  | [hs, ms] =>
    match digitsToNat (pyStrip hs), digitsToNat (pyStrip ms) with
    | some h, some m => if h ≤ 23 ∧ m ≤ 59 then some (h, m) else none
    | _, _ => none
  | _ => none

/-- One event of the tool input: the dictionary keys
`_create_simple_event` reads. -/
structure EventData where
  title : Option Str := none
  date : Option Str := none
  start_time : Option Str := none
  end_time : Option Str := none
  location : Option Str := none
  notes : Option Str := none
deriving DecidableEq, Repr

inductive EventTiming
  /-- Timed entry: begin/end instants (minutes) and the display alarm's
  trigger instant and description. -/
  | timed (beginM endM alarmTriggerM : Int) (alarmDescription : Str)
  /-- All-day entry (`event.begin = event_date; event.make_all_day()`). -/
  | allDay (d : Date)
deriving DecidableEq, Repr

/-- The ICS event record produced by `_create_simple_event`.  The `uid` is an
md5 hash of `uid_source` in the source; the hash itself is opaque and
irrelevant to every claim, so the pre-image string is kept instead. -/
structure IcsEvent where
  name : Str
  timing : EventTiming
  location : Option Str := none
  description : Option Str := none
  uidSource : Str
deriving DecidableEq, Repr

/-- Keep a stripped optional field only when non-empty (the `if location :=
... .strip():` walrus pattern). -/
def keepNonempty (s : Str) : Option Str := if s = [] then none else some s

/-- `TravelAgent._create_simple_event`: `None` when the event is skipped
(missing title/date or any parse failure, all caught by the enclosing
`except`). -/
def createSimpleEvent (ed : EventData) (userId : Str) : Option IcsEvent :=
  let title := pyStrip (ed.title.getD [])
  let dateStr := pyStrip (ed.date.getD [])
  if title = [] ∨ dateStr = [] then none
  else
    match parseIsoDate dateStr with
    | none => none
    | some d =>
      let st := pyStrip (ed.start_time.getD [])
      let et := pyStrip (ed.end_time.getD [])
      let loc := keepNonempty (pyStrip (ed.location.getD []))
      let nts := keepNonempty (pyStrip (ed.notes.getD []))
      let uidSrc := userId ++ ':' :: title ++ ':' :: dateStr ++ ':' :: st
      if st = [] then
        some { name := title, timing := EventTiming.allDay d,
               location := loc, description := nts, uidSource := uidSrc }
      else
        match parseTimeHM st with
        | none => none
        | some (sh, sm) =>
          let b := dtCombine d sh sm
          let alarmDesc := str "Reminder: " ++ title
          if et = [] then
            some { name := title,
                   timing := EventTiming.timed b (b + 60) (b - 30) alarmDesc,
                   location := loc, description := nts, uidSource := uidSrc }
          else
            match parseTimeHM et with
            | none => none
            | some (eh, em) =>
              some { name := title,
                     timing := EventTiming.timed b (dtCombine d eh em) (b - 30) alarmDesc,
                     location := loc, description := nts, uidSource := uidSrc }

/-! ## `generate_calendar_ics` / `_generate_calendar_ics_sync` (src/agent.py lines 772-864)

The file write and UI-event side effects are outside the pure data flow; the
write is reflected by the `written` field (the events serialized into the
calendar document, `none` when no file is written).  The source adds events
to an `ics.Calendar` event set; the insertion-ordered list of successfully
created events is kept here (no claim involves duplicate events).  The
timestamp `datetime.now().strftime(...)` is an input (`now`). -/

/-- Python truthiness of an optional string. -/
def pyTruthy (o : Option Str) : Bool :=
  match o with
  | some s => !s.isEmpty
  | none => false

/-- Keep an optional argument only when truthy (the `if start_time:
single_event["start_time"] = start_time` pattern). -/
def keepTruthy (o : Option Str) : Option Str :=
  match o with
  | some s => if s = [] then none else some s
  | none => none

structure CalendarResult where
  error : Option Str := none
  file_path : Option Str := none
  filename : Option Str := none
  events_count : Nat := 0
deriving DecidableEq, Repr

structure CalendarRun where
  result : CalendarResult
  /-- Events written into the calendar file; `none` when no file is written. -/
  written : Option (List IcsEvent) := none
deriving DecidableEq, Repr

/-- `re.sub(r'[^\w\-_]', '_', name)[:30]` (ASCII view of `\w`). -/
def safeName (s : Str) : Str :=
  (s.map fun c => if c.isAlphanum || c = '-' || c = '_' then c else '_').take 30

/-- `trip_name or 'itinerary'`. -/
def orItinerary (o : Option Str) : Str :=
  match o with
  | some s => if s = [] then str "itinerary" else s
  | none => str "itinerary"

/-- The single-event synthesis of `_generate_calendar_ics_sync`: when no
events list is given, build one event from the scalar arguments if `title
and date`, else fail with the no-events error. -/
def buildSingleEvent (title date start_time end_time location notes : Option Str) :
    Option (List EventData) :=
  if pyTruthy title && pyTruthy date then
    some [{ title := title, date := date,
            start_time := keepTruthy start_time, end_time := keepTruthy end_time,
            location := keepTruthy location, notes := keepTruthy notes }]
  else none

/-- `_generate_calendar_ics_sync`.  `events` is the optional events array,
the scalar arguments are the single-event fields, `userId` is
`_current_user_id`, `now` the timestamp string. -/
def generateCalendarIcsSync (events : Option (List EventData))
    (trip_name title date start_time end_time location notes : Option Str)
    (userId : Str) (now : Str) : CalendarRun :=
  let eventsOpt : Option (List EventData) :=
    match events with
    | some es =>
      if es = [] then buildSingleEvent title date start_time end_time location notes
      else some es
    | none => buildSingleEvent title date start_time end_time location notes
  match eventsOpt with
  | none =>
    { result := { error := some (str "No events provided"), file_path := none,
                  filename := none, events_count := 0 },
      written := none }
  | some es =>
    let evs := es.filterMap fun ed => createSimpleEvent ed userId
    let filename := now ++ '_' :: safeName (orItinerary trip_name) ++ str ".ics"
    let filePath := str "assets/calendars/" ++ userId ++ '/' :: filename
    { result := { error := none, file_path := some filePath,
                  filename := some filename, events_count := es.length },
      written := some evs }

/-! ## `TravelAgent.stream_chat_turn_with_events` (src/agent.py lines 943-1435)

The async generator is embedded as a function from the turn's external
interactions to its observable outcome:

* `retrieval` — the outcome of the Mem0 context-provider `invoking` call
  (lines 1139-1190), including the closed-event-loop reset-and-retry path;
* `merged` — one arrival-ordered interleaving of the two multiplexed queues
  (text increments from `_consume_stream`, UI events from both the
  middleware annotations and `_consume_logs`); the merge loop (lines
  1287-1332) processes whichever queue has an item ready, so a single
  interleaved list quantified over all orders is the faithful abstraction;
  event types carried by queued UI events are arbitrary strings, as in the
  code (`payload.get("type") or "tool_log"`);
* `streamError` — the message of the `ServiceResponseException` captured by
  `_consume_stream` (line 1223), if any; a non-`ServiceResponseException`
  stream failure is swallowed by the `except Exception: pass` around
  `asyncio.gather` and is indistinguishable from a shorter `merged`;
* `run1`, `run2` — outcomes of the first and (possibly) second
  `ctx.agent.run` fallback invocations (lines 1343 and 1387).

The output records the yielded `(cumulative text, optional event)` pairs,
the exception propagated to the caller (by message), how many times
`ctx.agent.run` was invoked, and the final value of the reply buffer. -/

/-- A UI event as yielded to the caller: its `type` string and the rendered
`html` card (extra payload keys carried by some events are not inspected by
any claim). -/
structure UIEvent where
  etype : Str
  html : Str
deriving DecidableEq, Repr

/-- `_html(icon, title, message)`. -/
def mkHtml (icon title message : Str) : Str :=
  str "<div class=" ++ q (str "event-card") ++ str ">"
    ++ str "<div class=" ++ q (str "event-title") ++ str ">"
    ++ icon ++ str " " ++ title ++ str "</div>"
    ++ str "<div class=" ++ q (str "event-message") ++ str ">"
    ++ message ++ str "</div>" ++ str "</div>"

/-- `_event(event_type, icon, title, message)`. -/
def mkUIEvent (etype icon title message : Str) : UIEvent :=
  { etype := etype, html := mkHtml icon title message }

def tyUserMessage : Str := str "user_message"
def tyContextRetrieved : Str := str "context_retrieved"
def tyContextSubmitted : Str := str "context_submitted"
def tyToolLog : Str := str "tool_log"
def tyToolResult : Str := str "tool_result"
def tyLlmResponseStart : Str := str "llm_response_start"
def tyLlmResponseEnd : Str := str "llm_response_end"

/-- The first yield of every turn:
`yield buffer, _event("user_message", "", "User message sent", f'"{user_message}"')`. -/
def userMessageEvent (userMessage : Str) : UIEvent :=
  mkUIEvent tyUserMessage [] (str "User message sent") ('"' :: userMessage ++ ['"'])

def llmResponseStartEvent : UIEvent :=
  mkUIEvent tyLlmResponseStart [] (str "LLM thinking") (str "LLM receives user input")

def llmResponseEndEvent : UIEvent :=
  mkUIEvent tyLlmResponseEnd (str "✅") (str "LLM finished streaming") []

/-- Outcome of the context-retrieval phase.  `invoked ctx` carries `some`
of the text `_provider_context_to_text` extracts from a truthy provider
context, `none` for a falsy context; `loopClosedRecovered` is the
`RuntimeError("Event loop is closed")` path whose retry succeeded;
`retrievalFailed` is any failure reaching the outer handler at line 1182. -/
inductive RetrievalOutcome
  | noProvider
  | invoked (ctxText : Option Str)
  | loopClosedRecovered (ctxText : Option Str)
  | retrievalFailed (msg : Str)
deriving DecidableEq, Repr

/-- `ctx_text[:600] + "…"` snippet bound. -/
def snippet600 (s : Str) : Str :=
  if s.length ≤ 600 then s else s.take 600 ++ [ellipsisChar]

/-- Yields produced for a truthy provider context (lines 1171-1179). -/
def contextYields (ctxText : Str) : List (Str × Option UIEvent) :=
  if ctxText = [] then
    [([], some (mkUIEvent tyToolLog (str "🧠") (str "Mem0 retrieval") (str "0 memories found")))]
  else
    [([], some (mkUIEvent tyContextRetrieved (str "🧠") (str "Context retrieved") (snippet600 ctxText))),
     ([], some (mkUIEvent tyContextSubmitted (str "📎") (str "Context submitted")
        (str "Included retrieved context in system message")))]

def mem0ResetYield : Str × Option UIEvent :=
  ([], some (mkUIEvent tyToolLog (str "🧠") (str "Mem0 client reset")
    (str "Recovered from closed event loop")))

/-- All yields of the retrieval phase (between the `user_message` yield and
the `llm_response_start` yield). -/
def retrievalYields : RetrievalOutcome → List (Str × Option UIEvent)
  | RetrievalOutcome.noProvider => []
  | RetrievalOutcome.invoked none => []
  | RetrievalOutcome.invoked (some t) => contextYields t
  | RetrievalOutcome.loopClosedRecovered none => [mem0ResetYield]
  | RetrievalOutcome.loopClosedRecovered (some t) => mem0ResetYield :: contextYields t
  | RetrievalOutcome.retrievalFailed msg =>
    [([], some (mkUIEvent tyToolLog (str "❌") (str "Mem0 retrieval error") msg))]

/-- One item arriving on one of the two multiplexed queues. -/
inductive StreamItem
  | textChunk (s : Str)
  | uiEvent (e : UIEvent)
deriving DecidableEq, Repr

/-- The `<span>` suffix appended to every queued cumulative-text item. -/
def thinkingAnim : Str := str " <span class=\"thinking-animation\">●●●</span>"

/-- The drain loop of lines 1287-1332 over one arrival-ordered interleaving:
a non-empty text chunk grows the buffer and yields the new cumulative text
with the thinking-animation suffix and no event (`yield item, None`); a UI
event yields the current buffer paired with the event (`yield buffer,
item`).  Returns the yields and the final buffer. -/
def mergeLoop : List StreamItem → Str → List (Str × Option UIEvent) × Str
  | [], buf => ([], buf)
  | StreamItem.textChunk s :: rest, buf =>
    if s = [] then mergeLoop rest buf
    else
      let buf1 := buf ++ s
      let r := mergeLoop rest buf1
      ((buf1 ++ thinkingAnim, none) :: r.1, r.2)
  | StreamItem.uiEvent e :: rest, buf =>
    let r := mergeLoop rest buf
    ((buf, some e) :: r.1, r.2)

/-- Outcome of one `ctx.agent.run` fallback invocation. -/
inductive RunOutcome
  | ok (messages : List ChatMessage)
  | failed
deriving DecidableEq, Repr

/-- Fallback text extraction (lines 1347-1351 / 1393-1397): concatenate, in
order, every truthy `TextContent.text` of every assistant message. -/
def concatAssistantTexts (msgs : List ChatMessage) : Str :=
  msgs.foldl (fun acc m =>
    if m.role = Role.assistant then
      m.contents.foldl (fun a c =>
        match c with
        | Content.text t => if t = [] then a else a ++ t
        | _ => a) acc
    else acc) []

/-- Fallback file-path extraction (lines 1352-1364 / 1398-1411): scan tool
messages' function results; each truthy path found overwrites the previous
one, so the last one wins. -/
def extractFilePath (msgs : List ChatMessage) : Option Str :=
  msgs.foldl (fun acc m =>
    if m.role = Role.tool then
      m.contents.foldl (fun a c =>
        match c with
        | Content.functionResult _ (some fp) => if fp = [] then a else some fp
        | _ => a) acc
    else acc) none

/-- First half of the provider tool-ordering pattern (line 1385). -/
def orderingNeedle1 : Str := str "messages with role " ++ q (str "tool")

/-- Second half of the provider tool-ordering pattern (line 1385). -/
def orderingNeedle2 : Str := str "preceding message with " ++ q (str "tool_calls")

/-- `"messages with role 'tool'" in msg and "preceding message with
'tool_calls'" in msg`. -/
def toolOrderingPattern (msg : Str) : Bool :=
  decide (orderingNeedle1 <:+: msg) && decide (orderingNeedle2 <:+: msg)

/-- The `tool_result` event yielded by the fallback paths when a calendar
file path was recovered (lines 1372-1377 / 1419-1424). -/
def fallbackToolResultEvent : UIEvent :=
  mkUIEvent tyToolResult (str "📅") (str "generate_calendar_ics finished")
    (str "Tool execution completed")

structure TurnOutput where
  /-- The `(growing reply, optional event)` pairs yielded to the caller. -/
  yields : List (Str × Option UIEvent)
  /-- Message of the exception propagated to the caller, if the generator
  raised. -/
  raised : Option Str
  /-- Number of `ctx.agent.run` (non-streaming fallback) invocations. -/
  runCalls : Nat
  /-- Final value of the reply buffer. -/
  finalText : Str
deriving DecidableEq, Repr

/-- Lines 1432-1435: after the try/except, if any assistant text was
produced, yield the terminal `llm_response_end` event and a final plain
yield. -/
def finishTurn (ys : List (Str × Option UIEvent)) (buf : Str) (n : Nat) : TurnOutput :=
  if buf = [] then { yields := ys, raised := none, runCalls := n, finalText := buf }
  else { yields := ys ++ [(buf, some llmResponseEndEvent), (buf, none)],
         raised := none, runCalls := n, finalText := buf }

/-- `stream_chat_turn_with_events`, as a function of the turn's external
interactions.  Control flow follows the source: the merge loop runs to
completion; a captured `ServiceResponseException` triggers the unguarded
inner fallback (line 1341, `if stream_error is not None`); if that
invocation fails, `raise stream_error` lands in the outer
`except ServiceResponseException` handler (line 1382), which retries the
fallback only when the message matches the tool-ordering pattern and
otherwise re-raises; a second failure re-raises the original error. -/
def streamChatTurnWithEvents (userMessage : Str) (retrieval : RetrievalOutcome)
    (merged : List StreamItem) (streamError : Option Str)
    (run1 run2 : RunOutcome) : TurnOutput :=
  let lp := mergeLoop merged []
  let pre : List (Str × Option UIEvent) :=
    ([], some (userMessageEvent userMessage)) ::
      (retrievalYields retrieval ++ ([], some llmResponseStartEvent) :: lp.1)
  match streamError with
  | none => finishTurn pre lp.2 0
  | some errMsg =>
    match run1 with
    | RunOutcome.ok msgs =>
      let ft := concatAssistantTexts msgs
      let buf1 := if ft = [] then lp.2 else ft
      let yFt : List (Str × Option UIEvent) := if ft = [] then [] else [(ft, none)]
      let yFp : List (Str × Option UIEvent) :=
        match extractFilePath msgs with
        | some _ => [(buf1, some fallbackToolResultEvent)]
        | none => []
      finishTurn (pre ++ yFt ++ yFp) buf1 1
    | RunOutcome.failed =>
      if toolOrderingPattern errMsg then
        match run2 with
        | RunOutcome.ok msgs =>
          let ft := concatAssistantTexts msgs
          let buf2 := if ft = [] then lp.2 else ft
          let yB : List (Str × Option UIEvent) := if buf2 = [] then [] else [(buf2, none)]
          let yFp : List (Str × Option UIEvent) :=
            match extractFilePath msgs with
            | some _ => [(buf2, some fallbackToolResultEvent)]
            | none => []
          finishTurn (pre ++ yB ++ yFp) buf2 2
        | RunOutcome.failed =>
          { yields := pre, raised := some errMsg, runCalls := 2, finalText := lp.2 }
      else
        { yields := pre, raised := some errMsg, runCalls := 1, finalText := lp.2 }

/-- The type of the last event (second component `some`) among the yields. -/
def lastEventType (ys : List (Str × Option UIEvent)) : Option Str :=
  (ys.filterMap fun y => y.2.map UIEvent.etype).getLast?

/-! ## Concrete instances used by witnesses and counterexamples -/

/-- A provider message matching the tool-ordering pattern of line 1385. -/
def orderingErrMsg : Str :=
  str "Invalid parameter: " ++ orderingNeedle1
    ++ str " must be a response to a " ++ orderingNeedle2 ++ str "."

/-- A streaming error message that does not match the tool-ordering pattern. -/
def rateLimitMsg : Str := str "rate limit exceeded"

/-- A fallback run result carrying one assistant text part. -/
def asstHelloMsg : ChatMessage :=
  { role := Role.assistant, contents := [Content.text (str "Hello from fallback")] }

/-- The timed example event of the spec: Museum, 2026-06-05, 14:30. -/
def museumEd : EventData :=
  { title := some (str "Museum"), date := some (str "2026-06-05"),
    start_time := some (str "14:30") }

/-- The all-day example event of the spec: City Tour, 2026-06-06, no time. -/
def cityTourEd : EventData :=
  { title := some (str "City Tour"), date := some (str "2026-06-06") }

/-- An event missing its required title. -/
def noTitleEd : EventData :=
  { date := some (str "2026-06-06"), start_time := some (str "10:00") }

/-- A calendar batch with one valid and one invalid event. -/
def calBatch : List EventData := [museumEd, noTitleEd]

/-- A search result scoring 0.9. -/
def searchR1 : SearchResult := { url := some (str "u1"), score := some ((9 : ℚ)/10) }

/-- A search result scoring 0.1. -/
def searchR2 : SearchResult := { url := some (str "u2"), score := some ((1 : ℚ)/10) }

/-- A search response with scores 0.9 and 0.1. -/
def searchResp : Option (List SearchResult) := some [searchR1, searchR2]

/-- A memory retrieval result of 20 non-empty lines. -/
def memParts20 : List Str := [joinNl (List.replicate 20 (str "line"))]

/-- The first 12 of those lines, joined. -/
def memTrimmed12 : Str := joinNl (List.replicate 12 (str "line"))

/-- An assistant message declaring tool call id `call1`. -/
def asstCallMsg : ChatMessage :=
  { role := Role.assistant, contents := [Content.functionCall (some (str "call1"))] }

/-- A tool message answering call id `call1`. -/
def toolResultMsg : ChatMessage :=
  { role := Role.tool, contents := [Content.functionResult (some (str "call1")) none] }

/-- A tool message answering a call id nothing declared. -/
def orphanToolMsg : ChatMessage :=
  { role := Role.tool, contents := [Content.functionResult (some (str "zzz")) none] }

/-! # Theorems -/

/-! ## C10 — empty calendar input -/

/-- C10: whenever the events argument is absent or empty and title and date
are not both provided, `generate_calendar_ics` returns exactly the
`No events provided` error result with a `None` file path and a zero event
count, and writes no calendar file (the embedding is a total function, so
no exception is raised). -/
theorem c10_no_events_error (events : Option (List EventData))
    (trip_name title date start_time end_time location notes : Option Str)
    (userId now : Str)
    (hev : events = none ∨ events = some [])
    (htd : ¬(pyTruthy title = true ∧ pyTruthy date = true)) :
    generateCalendarIcsSync events trip_name title date start_time end_time location notes userId now =
      { result := { error := some (str "No events provided"), file_path := none,
                    filename := none, events_count := 0 },
        written := none } := by
  have hb : buildSingleEvent title date start_time end_time location notes = none := by
    unfold buildSingleEvent
    have hand : ((pyTruthy title && pyTruthy date) = true) → False := by
      intro h
      rw [Bool.and_eq_true] at h
      exact htd h
    exact if_neg hand
  rcases hev with rfl | rfl <;> simp [generateCalendarIcsSync, hb]

/-- C10 witness: a concrete call with no events and only a date. -/
theorem c10_witness :
    generateCalendarIcsSync none none none (some (str "2026-06-05")) none none none none
        (str "u") (str "20260101_000000") =
      { result := { error := some (str "No events provided"), file_path := none,
                    filename := none, events_count := 0 },
        written := none } :=
  c10_no_events_error none none none (some (str "2026-06-05")) none none none none
    (str "u") (str "20260101_000000") (Or.inl rfl) (by decide)

/-! ## C6 — calendar batch with invalid events -/

/-- C6 (amended): for every non-empty batch, the call succeeds with no error
field, the events written to the calendar file are exactly the valid events
(invalid ones are skipped rather than failing the batch), and the returned
`events_count` equals the total number of input events — including the
skipped invalid ones, not only the valid ones. -/
theorem c6_calendar_batch (es : List EventData)
    (trip_name title date start_time end_time location notes : Option Str)
    (userId now : Str) (hne : es ≠ []) :
    (generateCalendarIcsSync (some es) trip_name title date start_time end_time location notes userId now).result.error = none
    ∧ (generateCalendarIcsSync (some es) trip_name title date start_time end_time location notes userId now).written =
        some (es.filterMap fun ed => createSimpleEvent ed userId)
    ∧ (generateCalendarIcsSync (some es) trip_name title date start_time end_time location notes userId now).result.events_count = es.length := by
  refine ⟨?_, ?_, ?_⟩ <;> simp [generateCalendarIcsSync, hne]

/-- C6 counterexample: a batch of two events, one of which is missing its
title, succeeds with one valid event in the file but reports
`events_count = 2`, not the number of valid events (1) claimed. -/
theorem c6_counterexample :
    (generateCalendarIcsSync (some calBatch) none none none none none none none (str "u") (str "t")).result.error = none
    ∧ (generateCalendarIcsSync (some calBatch) none none none none none none none (str "u") (str "t")).result.events_count = 2
    ∧ (calBatch.filterMap fun ed => createSimpleEvent ed (str "u")).length = 1
    ∧ (generateCalendarIcsSync (some calBatch) none none none none none none none (str "u") (str "t")).result.events_count ≠
        (calBatch.filterMap fun ed => createSimpleEvent ed (str "u")).length := by
  decide

/-- C6 witness: the amended theorem applied to the same concrete batch. -/
theorem c6_witness :
    (generateCalendarIcsSync (some calBatch) none none none none none none none (str "u") (str "ts")).result.error = none
    ∧ (generateCalendarIcsSync (some calBatch) none none none none none none none (str "u") (str "ts")).result.events_count = calBatch.length := by
  have h := c6_calendar_batch calBatch none none none none none none none (str "u") (str "ts") (by decide)
  exact ⟨h.1, h.2.2⟩

/-! ## C8 — search score threshold and extraction bound -/

/-- C8: no result with score at most 0.2 (missing scores default to 0)
appears in the filtered result list, at most 2 URLs are ever passed to
extraction, and every URL passed to extraction comes from the top 2
surviving results in original rank order. -/
theorem c8_search_filtering (response : Option (List SearchResult)) :
    (∀ r ∈ (performSearchFiltered response).1, ¬ (scoreOf r ≤ 1/5))
    ∧ (performSearchFiltered response).2.length ≤ 2
    ∧ (∀ u ∈ (performSearchFiltered response).2,
        ∃ r ∈ (performSearchFiltered response).1.take 2, r.url = some u) := by
  cases response with
  | none => refine ⟨?_, ?_, ?_⟩ <;> simp [performSearchFiltered]
  | some allResults =>
    refine ⟨?_, ?_, ?_⟩
    · intro r hr
      simp only [performSearchFiltered] at hr
      have hsc := (List.mem_filter.mp hr).2
      rw [decide_eq_true_eq] at hsc
      exact not_le.mpr hsc
    · simp only [performSearchFiltered]
      exact le_trans (List.length_filterMap_le _ _) (List.length_take_le _ _)
    · intro u hu
      simp only [performSearchFiltered] at hu ⊢
      obtain ⟨r, hr, hru⟩ := List.mem_filterMap.mp hu
      refine ⟨r, hr, ?_⟩
      unfold urlTruthy at hru
      split at hru
      next v heq =>
        by_cases hv : v = []
        · rw [if_pos hv] at hru; exact absurd hru (by simp)
        · rw [if_neg hv] at hru
          rw [heq, Option.some.inj hru]
      next heq => exact absurd hru (by simp)

/-- C8 witness: the theorem applied to a concrete two-result response with
scores 0.9 and 0.1. -/
theorem c8_witness :
    ¬ (scoreOf searchR1 ≤ 1/5)
    ∧ (performSearchFiltered searchResp).2.length ≤ 2
    ∧ ∃ r ∈ (performSearchFiltered searchResp).1.take 2, r.url = some (str "u1") := by
  have h := c8_search_filtering searchResp
  have hsc1 : decide ((1 : ℚ)/5 < scoreOf searchR1) = true := by
    rw [decide_eq_true_eq]
    norm_num [scoreOf, searchR1]
  have hsc2 : decide ((1 : ℚ)/5 < scoreOf searchR2) = false := by
    have hlt : ¬ ((1 : ℚ)/5 < scoreOf searchR2) := by norm_num [scoreOf, searchR2]
    exact decide_eq_false hlt
  have hfil : (performSearchFiltered searchResp).1 = [searchR1] := by
    simp only [performSearchFiltered, searchResp]
    rw [List.filter_cons, List.filter_cons, hsc1, hsc2]
    simp
  refine ⟨?_, h.2.1, ?_⟩
  · exact h.1 searchR1 (by rw [hfil]; exact List.mem_singleton.mpr rfl)
  · refine h.2.2 (str "u1") ?_
    have h2 : (performSearchFiltered searchResp).2 =
        ((performSearchFiltered searchResp).1.take 2).filterMap urlTruthy := rfl
    rw [h2, hfil]
    decide

/-! ## C9 — memory context truncation -/

/-- The split field count is one more than the newline count. -/
theorem splitLinesAux_length (s : Str) :
    ∀ acc, (splitLinesAux s acc).length = s.count '\n' + 1 := by
  induction s with
  | nil => intro acc; simp [splitLinesAux]
  | cons c rest ih =>
    intro acc
    by_cases hc : c = '\n'
    · subst hc
      simp [splitLinesAux, ih, List.count_cons]
    · simp [splitLinesAux, hc, ih, List.count_cons]

theorem pySplitlines_length_le (s : Str) :
    (pySplitlines s).length ≤ s.count '\n' + 1 := by
  unfold pySplitlines
  split
  · simp
  · split
    · rw [List.length_dropLast, splitLinesAux_length]
      omega
    · rw [splitLinesAux_length]

/-- Fields produced by the split contain no newline. -/
theorem splitLinesAux_no_nl (s : Str) :
    ∀ acc, '\n' ∉ acc → ∀ l ∈ splitLinesAux s acc, '\n' ∉ l := by
  induction s with
  | nil =>
    intro acc hacc l hl
    simp [splitLinesAux] at hl
    subst hl
    rw [List.mem_reverse]
    exact hacc
  | cons c rest ih =>
    intro acc hacc l hl
    by_cases hc : c = '\n'
    · subst hc
      simp [splitLinesAux] at hl
      rcases hl with rfl | hl
      · rw [List.mem_reverse]; exact hacc
      · exact ih [] (by simp) l hl
    · simp [splitLinesAux, hc] at hl
      refine ih (c :: acc) ?_ l hl
      intro h
      rcases List.mem_cons.mp h with h | h
      · exact hc h.symm
      · exact hacc h

theorem pySplitlines_no_nl (s : Str) : ∀ l ∈ pySplitlines s, '\n' ∉ l := by
  intro l hl
  unfold pySplitlines at hl
  split at hl
  · simp at hl
  · split at hl
    · exact splitLinesAux_no_nl s [] (by simp) l (List.dropLast_sublist _ |>.subset hl)
    · exact splitLinesAux_no_nl s [] (by simp) l hl

/-- Newline count of a newline-join of newline-free parts. -/
theorem joinNl_count_nl :
    ∀ ys : List Str, ys ≠ [] → (∀ l ∈ ys, '\n' ∉ l) →
      (joinNl ys).count '\n' = ys.length - 1 := by
  intro ys
  induction ys with
  | nil => intro h; exact absurd rfl h
  | cons x t ih =>
    intro _ hnl
    cases t with
    | nil =>
      simp [joinNl]
      exact List.count_eq_zero.mpr (hnl x (by simp))
    | cons y t2 =>
      have hrest := ih (by simp) (fun l hl => hnl l (List.mem_cons_of_mem _ hl))
      have hx : x.count '\n' = 0 := List.count_eq_zero.mpr (hnl x (by simp))
      show (x ++ '\n' :: joinNl (y :: t2)).count '\n' = (x :: y :: t2).length - 1
      rw [List.count_append, hx, List.count_cons]
      simp only [hrest]
      simp

/-- Core bound for the truncation result: at most 12 non-blank lines, at most
2001 characters, and the over-2000 case is an exact 2000-character cut plus
the ellipsis marker. -/
theorem mem0Final_spec (F : Str) (hne : mem0Final F ≠ []) :
    nonblankLineCount (mem0Final F) ≤ 12 ∧ (mem0Final F).length ≤ 2001 ∧
    (2000 < (mem0Final F).length →
      ∃ pre, mem0Final F = pre ++ [ellipsisChar] ∧ pre.length = 2000) := by
  have hLnl : ∀ l ∈ (mem0Lines F).take 12, '\n' ∉ l := by
    intro l hl
    have hmem := List.mem_of_mem_take hl
    exact pySplitlines_no_nl F l (List.mem_filter.mp hmem).1
  have hLlen : ((mem0Lines F).take 12).length ≤ 12 := List.length_take_le _ _
  by_cases hbig : 2000 < (mem0Trimmed F).length
  · have hdef : mem0Final F = (mem0Trimmed F).take 2000 ++ [ellipsisChar] := by
      unfold mem0Final
      rw [if_pos hbig]
    have hLne : (mem0Lines F).take 12 ≠ [] := by
      intro h0
      have : mem0Trimmed F = [] := by unfold mem0Trimmed; rw [h0]; rfl
      rw [this] at hbig
      simp at hbig
    have hcnt : (mem0Trimmed F).count '\n' = ((mem0Lines F).take 12).length - 1 :=
      joinNl_count_nl _ hLne hLnl
    refine ⟨?_, ?_, ?_⟩
    · rw [hdef]
      have h1 : nonblankLineCount ((mem0Trimmed F).take 2000 ++ [ellipsisChar]) ≤
          (pySplitlines ((mem0Trimmed F).take 2000 ++ [ellipsisChar])).length :=
        List.length_filter_le _ _
      have h2 := pySplitlines_length_le ((mem0Trimmed F).take 2000 ++ [ellipsisChar])
      have h3 : ((mem0Trimmed F).take 2000 ++ [ellipsisChar]).count '\n' ≤
          (mem0Trimmed F).count '\n' := by
        rw [List.count_append]
        have hz : ([ellipsisChar] : Str).count '\n' = 0 := by decide
        rw [hz, Nat.add_zero]
        exact (List.take_sublist _ _).count_le _
      omega
    · rw [hdef, List.length_append, List.length_take, List.length_singleton]
      omega
    · intro _
      refine ⟨(mem0Trimmed F).take 2000, hdef, ?_⟩
      rw [List.length_take]
      omega
  · have hdef : mem0Final F = mem0Trimmed F := by
      unfold mem0Final
      rw [if_neg hbig]
    rw [hdef] at hne ⊢
    have hLne : (mem0Lines F).take 12 ≠ [] := by
      intro h0
      apply hne
      unfold mem0Trimmed
      rw [h0]
      rfl
    have hcnt : (mem0Trimmed F).count '\n' = ((mem0Lines F).take 12).length - 1 :=
      joinNl_count_nl _ hLne hLnl
    refine ⟨?_, ?_, ?_⟩
    · have h1 : nonblankLineCount (mem0Trimmed F) ≤ (pySplitlines (mem0Trimmed F)).length :=
        List.length_filter_le _ _
      have h2 := pySplitlines_length_le (mem0Trimmed F)
      omega
    · omega
    · intro hb
      exact absurd hb hbig

/-- C9: whenever the memory-retrieval context is replaced by a truncated
text, that text has at most 12 non-blank lines and at most 2001 characters,
and if it exceeds 2000 characters it is exactly a 2000-character cut
followed by the ellipsis marker. -/
theorem c9_memory_truncation (parts : List Str) (t : Str)
    (h : mem0TruncateText parts = some t) :
    nonblankLineCount t ≤ 12 ∧ t.length ≤ 2001 ∧
    (2000 < t.length → ∃ pre, t = pre ++ [ellipsisChar] ∧ pre.length = 2000) := by
  simp only [mem0TruncateText] at h
  split at h
  · exact absurd h (by simp)
  · split at h
    · exact absurd h (by simp)
    · next hne =>
      obtain rfl := Option.some.inj h
      exact mem0Final_spec _ hne

/-- C9 witness: a 20-line retrieval result is replaced by its first 12
lines, and the theorem bounds apply to it. -/
theorem c9_witness :
    mem0TruncateText memParts20 = some memTrimmed12
    ∧ nonblankLineCount memTrimmed12 ≤ 12 := by
  have he : mem0TruncateText memParts20 = some memTrimmed12 := by decide
  exact ⟨he, (c9_memory_truncation memParts20 memTrimmed12 he).1⟩

/-! ## C7 — calendar event times -/

/-- C7: for every event `_create_simple_event` accepts, if a start time is
given the entry is timed with end equal to the explicit end time or, when
absent, start plus one hour, and with an alarm triggering exactly 30 minutes
before start; if no start time is given the entry is all-day. -/
theorem c7_event_times (ed : EventData) (uid : Str) (ev : IcsEvent) (d : Date)
    (hev : createSimpleEvent ed uid = some ev)
    (hd : parseIsoDate (pyStrip (ed.date.getD [])) = some d) :
    (pyStrip (ed.start_time.getD []) = [] → ev.timing = EventTiming.allDay d)
    ∧ (∀ sh sm, parseTimeHM (pyStrip (ed.start_time.getD [])) = some (sh, sm) →
        (pyStrip (ed.end_time.getD []) = [] →
          ev.timing = EventTiming.timed (dtCombine d sh sm) (dtCombine d sh sm + 60)
            (dtCombine d sh sm - 30) (str "Reminder: " ++ pyStrip (ed.title.getD [])))
        ∧ (∀ eh em, pyStrip (ed.end_time.getD []) ≠ [] →
            parseTimeHM (pyStrip (ed.end_time.getD [])) = some (eh, em) →
            ev.timing = EventTiming.timed (dtCombine d sh sm) (dtCombine d eh em)
              (dtCombine d sh sm - 30) (str "Reminder: " ++ pyStrip (ed.title.getD [])))) := by
  simp only [createSimpleEvent] at hev
  split at hev
  · exact absurd hev (by simp)
  · split at hev
    · exact absurd hev (by simp)
    · next d' hd' =>
      rw [hd] at hd'
      obtain rfl := Option.some.inj hd'
      split at hev
      · next hst =>
        obtain rfl := Option.some.inj hev
        constructor
        · intro _; rfl
        · intro sh sm hsh
          rw [hst, show parseTimeHM ([] : Str) = none from rfl] at hsh
          exact absurd hsh (by simp)
      · next hst =>
        split at hev
        · exact absurd hev (by simp)
        · next sh' sm' heq =>
          split at hev
          · next het =>
            obtain rfl := Option.some.inj hev
            constructor
            · intro h1; exact absurd h1 hst
            · intro sh sm hsh
              rw [heq] at hsh
              obtain ⟨rfl, rfl⟩ := Prod.mk.injEq .. ▸ Option.some.inj hsh
              constructor
              · intro _; rfl
              · intro eh em hetne _
                exact absurd het hetne
          · next het =>
            split at hev
            · exact absurd hev (by simp)
            · next eh' em' heq2 =>
              obtain rfl := Option.some.inj hev
              constructor
              · intro h1; exact absurd h1 hst
              · intro sh sm hsh
                rw [heq] at hsh
                obtain ⟨rfl, rfl⟩ := Prod.mk.injEq .. ▸ Option.some.inj hsh
                constructor
                · intro h1; exact absurd h1 het
                · intro eh em _ heh
                  rw [heq2] at heh
                  obtain ⟨rfl, rfl⟩ := Prod.mk.injEq .. ▸ Option.some.inj heh
                  rfl

/-- C7 witness: the Museum example (2026-06-05, 14:30) yields a timed entry
ending at 15:30 with an alarm at 14:00, and the City Tour example (no time)
yields an all-day entry. -/
theorem c7_witness :
    ((createSimpleEvent museumEd (str "u")).map IcsEvent.timing =
      some (EventTiming.timed (dtCombine ⟨2026, 6, 5⟩ 14 30) (dtCombine ⟨2026, 6, 5⟩ 15 30)
        (dtCombine ⟨2026, 6, 5⟩ 14 0) (str "Reminder: Museum")))
    ∧ ((createSimpleEvent cityTourEd (str "u")).map IcsEvent.timing =
        some (EventTiming.allDay ⟨2026, 6, 6⟩)) := by
  constructor
  · have hd : parseIsoDate (pyStrip (museumEd.date.getD [])) = some ⟨2026, 6, 5⟩ := by decide
    have hsh : parseTimeHM (pyStrip (museumEd.start_time.getD [])) = some (14, 30) := by decide
    have het : pyStrip (museumEd.end_time.getD []) = [] := by decide
    obtain ⟨ev, hev⟩ := Option.isSome_iff_exists.mp
      (show (createSimpleEvent museumEd (str "u")).isSome from by decide)
    have h := ((c7_event_times museumEd (str "u") ev ⟨2026, 6, 5⟩ hev hd).2 14 30 hsh).1 het
    rw [hev, Option.map_some', h]
    decide
  · have hd2 : parseIsoDate (pyStrip (cityTourEd.date.getD [])) = some ⟨2026, 6, 6⟩ := by decide
    have hst2 : pyStrip (cityTourEd.start_time.getD []) = [] := by decide
    obtain ⟨ev2, hev2⟩ := Option.isSome_iff_exists.mp
      (show (createSimpleEvent cityTourEd (str "u")).isSome from by decide)
    have h2 := (c7_event_times cityTourEd (str "u") ev2 ⟨2026, 6, 6⟩ hev2 hd2).1 hst2
    rw [hev2, Option.map_some', h2]

/-! ## C1, C2, C3 — turn orchestration -/

set_option maxRecDepth 8000

theorem finishTurn_raised (ys : List (Str × Option UIEvent)) (buf : Str) (n : Nat) :
    (finishTurn ys buf n).raised = none := by
  unfold finishTurn
  split <;> rfl

theorem finishTurn_runCalls (ys : List (Str × Option UIEvent)) (buf : Str) (n : Nat) :
    (finishTurn ys buf n).runCalls = n := by
  unfold finishTurn
  split <;> rfl

theorem finishTurn_finalText (ys : List (Str × Option UIEvent)) (buf : Str) (n : Nat) :
    (finishTurn ys buf n).finalText = buf := by
  unfold finishTurn
  split <;> rfl

theorem finishTurn_head (y : Str × Option UIEvent) (ys : List (Str × Option UIEvent))
    (buf : Str) (n : Nat) :
    (finishTurn (y :: ys) buf n).yields.head? = some y := by
  unfold finishTurn
  split <;> simp

/-- When assistant text was produced, the terminal `llm_response_end` event
is the last event among the yields. -/
theorem lastEventType_finish (ys : List (Str × Option UIEvent)) (buf : Str) (n : Nat)
    (h : buf ≠ []) :
    lastEventType (finishTurn ys buf n).yields = some tyLlmResponseEnd := by
  unfold finishTurn
  rw [if_neg h]
  unfold lastEventType
  rw [List.filterMap_append]
  have hx : List.filterMap (fun y => Option.map UIEvent.etype y.2)
      [(buf, some llmResponseEndEvent), (buf, none)] = [tyLlmResponseEnd] := rfl
  rw [hx]
  exact List.getLast?_concat _

/-- C1 (amended): the first yield of every turn carries the `user_message`
event; and for every turn that completes without raising, if any assistant
text was produced the last event yielded is `llm_response_end`. -/
theorem c1_first_and_last_events (userMessage : Str) (retrieval : RetrievalOutcome)
    (merged : List StreamItem) (streamError : Option Str) (run1 run2 : RunOutcome) :
    (streamChatTurnWithEvents userMessage retrieval merged streamError run1 run2).yields.head? =
      some ([], some (userMessageEvent userMessage))
    ∧ ((streamChatTurnWithEvents userMessage retrieval merged streamError run1 run2).raised = none →
        (streamChatTurnWithEvents userMessage retrieval merged streamError run1 run2).finalText ≠ [] →
        lastEventType (streamChatTurnWithEvents userMessage retrieval merged streamError run1 run2).yields =
          some tyLlmResponseEnd) := by
  cases streamError with
  | none =>
    simp only [streamChatTurnWithEvents]
    refine ⟨finishTurn_head _ _ _ _, ?_⟩
    intro _ hb
    rw [finishTurn_finalText] at hb
    exact lastEventType_finish _ _ _ hb
  | some errMsg =>
    cases run1 with
    | ok msgs =>
      simp only [streamChatTurnWithEvents, List.cons_append]
      refine ⟨finishTurn_head _ _ _ _, ?_⟩
      intro _ hb
      rw [finishTurn_finalText] at hb
      exact lastEventType_finish _ _ _ hb
    | failed =>
      cases hpat : toolOrderingPattern errMsg with
      | true =>
        cases run2 with
        | ok msgs =>
          simp only [streamChatTurnWithEvents, hpat, if_true, List.cons_append]
          refine ⟨finishTurn_head _ _ _ _, ?_⟩
          intro _ hb
          rw [finishTurn_finalText] at hb
          exact lastEventType_finish _ _ _ hb
        | failed =>
          simp only [streamChatTurnWithEvents, hpat, if_true]
          refine ⟨rfl, ?_⟩
          intro hr
          simp at hr
      | false =>
        simp only [streamChatTurnWithEvents, hpat, Bool.false_eq_true, if_false]
        refine ⟨rfl, ?_⟩
        intro hr
        simp at hr

/-- C1 counterexample: a turn that streams the text `Hello` and then raises
an unrecovered streaming error has produced assistant text, yet its last
yielded event is not `llm_response_end` — the claim as stated fails for
turns that end in a raised error. -/
theorem c1_counterexample :
    (streamChatTurnWithEvents (str "hi") RetrievalOutcome.noProvider
        [StreamItem.textChunk (str "Hello")] (some rateLimitMsg)
        RunOutcome.failed RunOutcome.failed).finalText ≠ []
    ∧ lastEventType (streamChatTurnWithEvents (str "hi") RetrievalOutcome.noProvider
        [StreamItem.textChunk (str "Hello")] (some rateLimitMsg)
        RunOutcome.failed RunOutcome.failed).yields ≠ some tyLlmResponseEnd := by
  decide

/-- C1 witness: a successful streamed turn ends with `llm_response_end`. -/
theorem c1_witness :
    lastEventType (streamChatTurnWithEvents (str "hi") RetrievalOutcome.noProvider
        [StreamItem.textChunk (str "Hey")] none RunOutcome.failed RunOutcome.failed).yields =
      some tyLlmResponseEnd :=
  (c1_first_and_last_events (str "hi") RetrievalOutcome.noProvider
      [StreamItem.textChunk (str "Hey")] none RunOutcome.failed RunOutcome.failed).2
    (by decide) (by decide)

/-- C2 (code evaluated at the failing input): a streaming
`ServiceResponseException` whose message does not match the tool-ordering
pattern still triggers one non-streaming fallback run (line 1341 checks
only `stream_error is not None`), and when that run succeeds no error
propagates to the caller — where the claim requires no fallback and direct
propagation. -/
theorem c2_unrecognized_error_fallback :
    toolOrderingPattern rateLimitMsg = false
    ∧ (streamChatTurnWithEvents (str "hi") RetrievalOutcome.noProvider []
        (some rateLimitMsg) (RunOutcome.ok [asstHelloMsg]) RunOutcome.failed).runCalls = 1
    ∧ (streamChatTurnWithEvents (str "hi") RetrievalOutcome.noProvider []
        (some rateLimitMsg) (RunOutcome.ok [asstHelloMsg]) RunOutcome.failed).raised = none := by
  decide

/-- C3 (amended): for a streaming failure matching the tool-ordering
pattern, the non-streaming run is invoked once, and a second time only if
the first invocation fails; on a successful invocation with non-empty
concatenated assistant text, the final text equals that concatenation (in
order); if both invocations fail, the original streaming error is the one
raised. -/
theorem c3_fallback_behavior (userMessage : Str) (retrieval : RetrievalOutcome)
    (merged : List StreamItem) (errMsg : Str) (run1 run2 : RunOutcome)
    (hpat : toolOrderingPattern errMsg = true) :
    (∀ msgs, run1 = RunOutcome.ok msgs →
      (streamChatTurnWithEvents userMessage retrieval merged (some errMsg) run1 run2).runCalls = 1
      ∧ (streamChatTurnWithEvents userMessage retrieval merged (some errMsg) run1 run2).raised = none
      ∧ (concatAssistantTexts msgs ≠ [] →
          (streamChatTurnWithEvents userMessage retrieval merged (some errMsg) run1 run2).finalText =
            concatAssistantTexts msgs))
    ∧ (∀ msgs, run1 = RunOutcome.failed → run2 = RunOutcome.ok msgs →
      (streamChatTurnWithEvents userMessage retrieval merged (some errMsg) run1 run2).runCalls = 2
      ∧ (streamChatTurnWithEvents userMessage retrieval merged (some errMsg) run1 run2).raised = none
      ∧ (concatAssistantTexts msgs ≠ [] →
          (streamChatTurnWithEvents userMessage retrieval merged (some errMsg) run1 run2).finalText =
            concatAssistantTexts msgs))
    ∧ (run1 = RunOutcome.failed → run2 = RunOutcome.failed →
      (streamChatTurnWithEvents userMessage retrieval merged (some errMsg) run1 run2).raised = some errMsg
      ∧ (streamChatTurnWithEvents userMessage retrieval merged (some errMsg) run1 run2).runCalls = 2) := by
  refine ⟨?_, ?_, ?_⟩
  · intro msgs h1
    subst h1
    simp only [streamChatTurnWithEvents]
    refine ⟨finishTurn_runCalls _ _ _, finishTurn_raised _ _ _, ?_⟩
    intro hc
    rw [finishTurn_finalText, if_neg hc]
  · intro msgs h1 h2
    subst h1
    subst h2
    simp only [streamChatTurnWithEvents, hpat, if_true]
    refine ⟨finishTurn_runCalls _ _ _, finishTurn_raised _ _ _, ?_⟩
    intro hc
    rw [finishTurn_finalText, if_neg hc]
  · intro h1 h2
    subst h1
    subst h2
    simp only [streamChatTurnWithEvents, hpat, if_true]
    constructor <;> trivial

/-- C3 counterexample: with a pattern-matching streaming failure whose
fallback run fails, the non-streaming run entrypoint is invoked twice, not
exactly once as claimed (the re-raised error lands in the outer handler,
which retries). -/
theorem c3_counterexample :
    toolOrderingPattern orderingErrMsg = true
    ∧ (streamChatTurnWithEvents (str "hi") RetrievalOutcome.noProvider []
        (some orderingErrMsg) RunOutcome.failed RunOutcome.failed).runCalls = 2
    ∧ (streamChatTurnWithEvents (str "hi") RetrievalOutcome.noProvider []
        (some orderingErrMsg) RunOutcome.failed RunOutcome.failed).runCalls ≠ 1 := by
  decide

/-- C3 witness: the amended theorem at a pattern-matching error whose
fallback run succeeds with one assistant text part. -/
theorem c3_witness :
    (streamChatTurnWithEvents (str "hi") RetrievalOutcome.noProvider []
        (some orderingErrMsg) (RunOutcome.ok [asstHelloMsg]) RunOutcome.failed).runCalls = 1
    ∧ (streamChatTurnWithEvents (str "hi") RetrievalOutcome.noProvider []
        (some orderingErrMsg) (RunOutcome.ok [asstHelloMsg]) RunOutcome.failed).finalText =
        concatAssistantTexts [asstHelloMsg] := by
  have h := (c3_fallback_behavior (str "hi") RetrievalOutcome.noProvider [] orderingErrMsg
      (RunOutcome.ok [asstHelloMsg]) RunOutcome.failed (by decide)).1 [asstHelloMsg] rfl
  exact ⟨h.1, h.2.2 (by decide)⟩

/-! ## C4, C5 — history sanitizer -/

theorem sanitizeScan_nil (S : List Str) : sanitizeScan S [] = [] := rfl

/-- One-step unfolding of the scan on a non-empty list. -/
theorem sanitizeScan_cons_eq (S : List Str) (m : ChatMessage) (rest : List ChatMessage) :
    sanitizeScan S (m :: rest) =
      if m.role = Role.assistant then m :: sanitizeScan (S ++ assistantCallIds m) rest
      else if m.role = Role.tool then
        (if (m.contents.filter (keepResult S)).isEmpty
         then sanitizeScan S rest
         else { m with contents := m.contents.filter (keepResult S) } :: sanitizeScan S rest)
      else m :: sanitizeScan S rest := rfl

theorem sanitizeScan_cons_assistant (S : List Str) (m : ChatMessage) (rest : List ChatMessage)
    (ha : m.role = Role.assistant) :
    sanitizeScan S (m :: rest) = m :: sanitizeScan (S ++ assistantCallIds m) rest := by
  rw [sanitizeScan_cons_eq, if_pos ha]

theorem sanitizeScan_cons_tool_drop (S : List Str) (m : ChatMessage) (rest : List ChatMessage)
    (ht : m.role = Role.tool) (hemp : m.contents.filter (keepResult S) = []) :
    sanitizeScan S (m :: rest) = sanitizeScan S rest := by
  rw [sanitizeScan_cons_eq, if_neg (by simp [ht]), if_pos ht, if_pos (by simp [hemp])]

theorem sanitizeScan_cons_tool_keep (S : List Str) (m : ChatMessage) (rest : List ChatMessage)
    (ht : m.role = Role.tool) (hemp : m.contents.filter (keepResult S) ≠ []) :
    sanitizeScan S (m :: rest) =
      { m with contents := m.contents.filter (keepResult S) } :: sanitizeScan S rest := by
  rw [sanitizeScan_cons_eq, if_neg (by simp [ht]), if_pos ht, if_neg (by simp [hemp])]

theorem sanitizeScan_cons_other (S : List Str) (m : ChatMessage) (rest : List ChatMessage)
    (ha : m.role ≠ Role.assistant) (ht : m.role ≠ Role.tool) :
    sanitizeScan S (m :: rest) = m :: sanitizeScan S rest := by
  rw [sanitizeScan_cons_eq, if_neg ha, if_neg ht]

/-- A content part passes the tool filter exactly when it is a function
result whose call id is in the valid set. -/
theorem keepResult_true_iff (S : List Str) (c : Content) :
    keepResult S c = true ↔
      ∃ cid fp, c = Content.functionResult (some cid) fp ∧ cid ∈ S := by
  cases c with
  | text t => simp [keepResult]
  | functionCall cid => simp [keepResult]
  | functionResult cid fp =>
    cases cid with
    | none => simp [keepResult]
    | some cid2 =>
      simp only [keepResult, decide_eq_true_eq]
      constructor
      · intro h
        exact ⟨cid2, fp, rfl, h⟩
      · rintro ⟨cid3, fp3, heq, hmem⟩
        injection heq with h1 h2
        rw [Option.some.inj h1]
        exact hmem

/-- Soundness invariant of the sanitizer scan: every tool message of the
output has non-empty contents, all of them function results whose call id
is either in the starting valid set or declared by a function call of an
earlier assistant message of the output. -/
theorem sanitizeScan_tool_shape (msgs : List ChatMessage) :
    ∀ (S : List Str) (pre : List ChatMessage) (m : ChatMessage) (post : List ChatMessage),
      sanitizeScan S msgs = pre ++ m :: post → m.role = Role.tool →
      m.contents ≠ [] ∧
        ∀ c ∈ m.contents, ∃ cid fp, c = Content.functionResult (some cid) fp ∧
          (cid ∈ S ∨ ∃ a, a ∈ pre ∧ a.role = Role.assistant ∧ cid ∈ assistantCallIds a) := by
  induction msgs with
  | nil =>
    intro S pre m post h _
    rw [sanitizeScan_nil] at h
    cases pre <;> simp at h
  | cons m0 rest ih =>
    intro S pre m post h hrole
    by_cases ha : m0.role = Role.assistant
    · rw [sanitizeScan_cons_assistant S m0 rest ha] at h
      cases pre with
      | nil =>
        rw [List.nil_append] at h
        injection h with h1 h2
        subst h1
        rw [ha] at hrole
        exact absurd hrole (by decide)
      | cons a pre2 =>
        rw [List.cons_append] at h
        injection h with h1 h2
        subst h1
        obtain ⟨hne, hval⟩ := ih (S ++ assistantCallIds m0) pre2 m post h2 hrole
        refine ⟨hne, fun c hc => ?_⟩
        obtain ⟨cid, fp, hcfp, hloc⟩ := hval c hc
        refine ⟨cid, fp, hcfp, ?_⟩
        rcases hloc with hS | hdecl
        · rcases List.mem_append.mp hS with h3 | h3
          · exact Or.inl h3
          · exact Or.inr ⟨m0, List.mem_cons_self _ _, ha, h3⟩
        · obtain ⟨a2, ha2, hrole2, hcid2⟩ := hdecl
          exact Or.inr ⟨a2, List.mem_cons_of_mem _ ha2, hrole2, hcid2⟩
    · by_cases ht : m0.role = Role.tool
      · by_cases hemp : m0.contents.filter (keepResult S) = []
        · rw [sanitizeScan_cons_tool_drop S m0 rest ht hemp] at h
          exact ih S pre m post h hrole
        · rw [sanitizeScan_cons_tool_keep S m0 rest ht hemp] at h
          cases pre with
          | nil =>
            rw [List.nil_append] at h
            injection h with h1 h2
            subst h1
            refine ⟨hemp, fun c hc => ?_⟩
            have hk := (List.mem_filter.mp hc).2
            obtain ⟨cid, fp, hcfp, hS⟩ := (keepResult_true_iff S c).mp hk
            exact ⟨cid, fp, hcfp, Or.inl hS⟩
          | cons a pre2 =>
            rw [List.cons_append] at h
            injection h with h1 h2
            subst h1
            obtain ⟨hne, hval⟩ := ih S pre2 m post h2 hrole
            refine ⟨hne, fun c hc => ?_⟩
            obtain ⟨cid, fp, hcfp, hloc⟩ := hval c hc
            refine ⟨cid, fp, hcfp, ?_⟩
            rcases hloc with hS | hdecl
            · exact Or.inl hS
            · obtain ⟨a2, ha2, hrole2, hcid2⟩ := hdecl
              exact Or.inr ⟨a2, List.mem_cons_of_mem _ ha2, hrole2, hcid2⟩
      · rw [sanitizeScan_cons_other S m0 rest ha ht] at h
        cases pre with
        | nil =>
          rw [List.nil_append] at h
          injection h with h1 h2
          subst h1
          exact absurd hrole ht
        | cons a pre2 =>
          rw [List.cons_append] at h
          injection h with h1 h2
          subst h1
          obtain ⟨hne, hval⟩ := ih S pre2 m post h2 hrole
          refine ⟨hne, fun c hc => ?_⟩
          obtain ⟨cid, fp, hcfp, hloc⟩ := hval c hc
          refine ⟨cid, fp, hcfp, ?_⟩
          rcases hloc with hS | hdecl
          · exact Or.inl hS
          · obtain ⟨a2, ha2, hrole2, hcid2⟩ := hdecl
            exact Or.inr ⟨a2, List.mem_cons_of_mem _ ha2, hrole2, hcid2⟩

theorem dropWhile_length_le {α : Type} (p : α → Bool) (l : List α) :
    (l.dropWhile p).length ≤ l.length := by
  induction l with
  | nil => simp
  | cons x t ih =>
    rw [List.dropWhile_cons]
    split
    · exact le_trans ih (by simp)
    · simp

theorem dropWhile_isToolRole_idem (l : List ChatMessage) :
    (l.dropWhile isToolRole).dropWhile isToolRole = l.dropWhile isToolRole := by
  induction l with
  | nil => rfl
  | cons x t ih =>
    rw [List.dropWhile_cons]
    split
    · exact ih
    · next hx => rw [List.dropWhile_cons, if_neg hx]

/-- C4: the sanitizer output contains no tool-role message referencing a
call id not declared by a function-call part of an earlier assistant
message of the output; the leading run of tool-role messages contributes
nothing (sanitizing is the same as sanitizing with it removed); and an
all-tool input sanitizes to the empty list. -/
theorem c4_sanitizer_soundness (msgs : List ChatMessage) :
    (∀ pre m post, sanitizeMessages msgs = pre ++ m :: post → m.role = Role.tool →
      ∀ c ∈ m.contents, ∃ cid fp, c = Content.functionResult (some cid) fp ∧
        ∃ a, a ∈ pre ∧ a.role = Role.assistant ∧ cid ∈ assistantCallIds a)
    ∧ sanitizeMessages msgs = sanitizeMessages (msgs.dropWhile isToolRole)
    ∧ ((∀ m ∈ msgs, m.role = Role.tool) → sanitizeMessages msgs = []) := by
  refine ⟨?_, ?_, ?_⟩
  · intro pre m post h hrole c hc
    obtain ⟨_, hval⟩ := sanitizeScan_tool_shape (msgs.dropWhile isToolRole) [] pre m post h hrole
    obtain ⟨cid, fp, hcfp, hloc⟩ := hval c hc
    refine ⟨cid, fp, hcfp, ?_⟩
    rcases hloc with hS | hdecl
    · exact absurd hS (List.not_mem_nil cid)
    · exact hdecl
  · show sanitizeScan [] (msgs.dropWhile isToolRole) =
      sanitizeScan [] ((msgs.dropWhile isToolRole).dropWhile isToolRole)
    rw [dropWhile_isToolRole_idem]
  · intro hall
    show sanitizeScan [] (msgs.dropWhile isToolRole) = []
    have hdw : msgs.dropWhile isToolRole = [] := by
      rw [List.dropWhile_eq_nil_iff]
      intro x hx
      simp [isToolRole, hall x hx]
    rw [hdw]
    rfl

/-- C4 witness: a declared call id is matched by an earlier assistant
message of the output, and an all-tool sequence sanitizes to the empty
list. -/
theorem c4_witness :
    (∃ cid fp, Content.functionResult (some (str "call1")) none =
        Content.functionResult (some cid) fp ∧
      ∃ a, a ∈ [asstCallMsg] ∧ a.role = Role.assistant ∧ cid ∈ assistantCallIds a)
    ∧ sanitizeMessages [orphanToolMsg] = [] := by
  constructor
  · exact (c4_sanitizer_soundness [asstCallMsg, toolResultMsg]).1 [asstCallMsg] toolResultMsg []
      (by decide) (by decide) (Content.functionResult (some (str "call1")) none) (by decide)
  · exact (c4_sanitizer_soundness [orphanToolMsg]).2.2 (by decide)

/-- The sanitizer output never starts with a tool-role message. -/
theorem sanitizeMessages_no_leading_tool (msgs : List ChatMessage) :
    (sanitizeMessages msgs).dropWhile isToolRole = sanitizeMessages msgs := by
  show (sanitizeScan [] (msgs.dropWhile isToolRole)).dropWhile isToolRole =
    sanitizeScan [] (msgs.dropWhile isToolRole)
  rcases hdw : msgs.dropWhile isToolRole with _ | ⟨m0, rest⟩
  · rfl
  · have hm0 : isToolRole m0 = false := by
      have hidem := dropWhile_isToolRole_idem msgs
      rw [hdw, List.dropWhile_cons] at hidem
      by_cases hx : isToolRole m0 = true
      · rw [if_pos hx] at hidem
        have hlen := congrArg List.length hidem
        have hle := dropWhile_length_le isToolRole rest
        simp at hlen
        omega
      · exact Bool.eq_false_iff.mpr hx
    have hnt : m0.role ≠ Role.tool := by
      intro h1
      simp [isToolRole, h1] at hm0
    have hcons : ∃ tail, sanitizeScan [] (m0 :: rest) = m0 :: tail := by
      by_cases ha : m0.role = Role.assistant
      · exact ⟨_, sanitizeScan_cons_assistant _ _ _ ha⟩
      · exact ⟨_, sanitizeScan_cons_other _ _ _ ha hnt⟩
    obtain ⟨tail, htail⟩ := hcons
    rw [htail, List.dropWhile_cons, if_neg (by simp [hm0])]

/-- Rescanning a list that already satisfies the validity invariant with
respect to `S` is the identity. -/
theorem sanitizeScan_of_valid (ys : List ChatMessage) :
    ∀ S : List Str,
      (∀ pre m post, ys = pre ++ m :: post → m.role = Role.tool →
        m.contents ≠ [] ∧ ∀ c ∈ m.contents, ∃ cid fp,
          c = Content.functionResult (some cid) fp ∧
          (cid ∈ S ∨ ∃ a, a ∈ pre ∧ a.role = Role.assistant ∧ cid ∈ assistantCallIds a)) →
      sanitizeScan S ys = ys := by
  induction ys with
  | nil => intro S _; rfl
  | cons y t ih =>
    intro S hinv
    by_cases ha : y.role = Role.assistant
    · rw [sanitizeScan_cons_assistant S y t ha]
      congr 1
      apply ih
      intro pre m post hdecomp hrole
      obtain ⟨hne, hval⟩ := hinv (y :: pre) m post (by rw [hdecomp, List.cons_append]) hrole
      refine ⟨hne, fun c hc => ?_⟩
      obtain ⟨cid, fp, hcfp, hloc⟩ := hval c hc
      refine ⟨cid, fp, hcfp, ?_⟩
      rcases hloc with hS | hdecl
      · exact Or.inl (List.mem_append.mpr (Or.inl hS))
      · obtain ⟨a2, ha2, hrole2, hcid2⟩ := hdecl
        rcases List.mem_cons.mp ha2 with rfl | ha3
        · exact Or.inl (List.mem_append.mpr (Or.inr hcid2))
        · exact Or.inr ⟨a2, ha3, hrole2, hcid2⟩
    · by_cases ht : y.role = Role.tool
      · obtain ⟨hne, hval⟩ := hinv [] y t (by rw [List.nil_append]) ht
        have hfil : y.contents.filter (keepResult S) = y.contents := by
          apply List.filter_eq_self.mpr
          intro c hc
          obtain ⟨cid, fp, hcfp, hloc⟩ := hval c hc
          rcases hloc with hS | hdecl
          · exact (keepResult_true_iff S c).mpr ⟨cid, fp, hcfp, hS⟩
          · obtain ⟨a2, ha2, _, _⟩ := hdecl
            exact absurd ha2 (List.not_mem_nil a2)
        rw [sanitizeScan_cons_tool_keep S y t ht (by rw [hfil]; exact hne)]
        have hupd : { y with contents := y.contents.filter (keepResult S) } = y := by
          rw [hfil]
        rw [hupd]
        congr 1
        apply ih
        intro pre m post hdecomp hrole
        obtain ⟨hne2, hval2⟩ := hinv (y :: pre) m post (by rw [hdecomp, List.cons_append]) hrole
        refine ⟨hne2, fun c hc => ?_⟩
        obtain ⟨cid, fp, hcfp, hloc⟩ := hval2 c hc
        refine ⟨cid, fp, hcfp, ?_⟩
        rcases hloc with hS | hdecl
        · exact Or.inl hS
        · obtain ⟨a2, ha2, hrole2, hcid2⟩ := hdecl
          rcases List.mem_cons.mp ha2 with rfl | ha3
          · rw [hrole2] at ht
            exact absurd ht (by decide)
          · exact Or.inr ⟨a2, ha3, hrole2, hcid2⟩
      · rw [sanitizeScan_cons_other S y t ha ht]
        congr 1
        apply ih
        intro pre m post hdecomp hrole
        obtain ⟨hne2, hval2⟩ := hinv (y :: pre) m post (by rw [hdecomp, List.cons_append]) hrole
        refine ⟨hne2, fun c hc => ?_⟩
        obtain ⟨cid, fp, hcfp, hloc⟩ := hval2 c hc
        refine ⟨cid, fp, hcfp, ?_⟩
        rcases hloc with hS | hdecl
        · exact Or.inl hS
        · obtain ⟨a2, ha2, hrole2, hcid2⟩ := hdecl
          rcases List.mem_cons.mp ha2 with rfl | ha3
          · exact absurd hrole2 ha
          · exact Or.inr ⟨a2, ha3, hrole2, hcid2⟩

/-- C5: the sanitizer is idempotent — sanitizing an already sanitized
sequence changes nothing. -/
theorem c5_sanitize_idempotent (msgs : List ChatMessage) :
    sanitizeMessages (sanitizeMessages msgs) = sanitizeMessages msgs := by
  show sanitizeScan [] ((sanitizeMessages msgs).dropWhile isToolRole) = sanitizeMessages msgs
  rw [sanitizeMessages_no_leading_tool]
  apply sanitizeScan_of_valid
  intro pre m post hdecomp hrole
  exact sanitizeScan_tool_shape (msgs.dropWhile isToolRole) [] pre m post hdecomp hrole
